import Mathlib

/-!
Verification development for the GEKOPILOT setup-runner core
(audit → plan → execute pipeline).

The TypeScript sources `src/SetupRunner/Auditor.ts`, the Planner
(`createActionPlan` / `determineAction`) and the final revision of
`src/SetupRunner/Executor.ts` are shallowly embedded below.  Host-system
effects (file system probes, child processes, the interactive sudo
terminal) are modelled by explicit environment records of oracle
functions; the external node-semver library is modelled by parameters
(`valid`, `satisfies`) wherever the source calls into it.
-/

namespace GekoPilot

/-! ## Data model (src/types.ts) -/

/-- A dependency entry as declared in the devsetup configuration
(`DependencyRequirement` in src/types.ts).  Optional string fields are
`Option String`; the JavaScript values `undefined` and `null` are both
`none` (no use in the embedded code distinguishes them). -/
structure DependencyRequirement where
  id : String
  name : String
  requiredVersion : Option String := none
  installCommand : Option String := none
  uninstallCommand : Option String := none
  cliName : Option String := none
  versionFlag : Option String := none
deriving DecidableEq, Repr

/-- Result of auditing one dependency (`AuditResult` in src/types.ts). -/
structure AuditResult where
  dependency : DependencyRequirement
  isInstalled : Bool
  installedVersion : Option String := none
  notes : Option String := none
deriving DecidableEq, Repr

/-- The action discriminator of an `ActionStep`
(the union type INSTALL | REINSTALL | ALREADY_MET in src/types.ts). -/
inductive ActionKind where
  | INSTALL
  | REINSTALL
  | ALREADY_MET
deriving DecidableEq, Repr

/-- One planned step (`ActionStep` in src/types.ts). -/
structure ActionStep where
  dependency : DependencyRequirement
  action : ActionKind
  reason : String
deriving DecidableEq, Repr

/-- Details of a failed step (`FailedStepInfo` in src/types.ts).  The
source narrows `action` to INSTALL | REINSTALL by a cast; we keep the
full `ActionKind`. -/
structure FailedStepInfo where
  dependencyName : String
  action : ActionKind
  errorMessage : String
deriving DecidableEq, Repr

/-- Aggregate outcome of `executePlan` (`ExecutionResult` in src/types.ts). -/
structure ExecutionResult where
  totalSteps : Nat
  stepsAttempted : Nat
  stepsSucceeded : Nat
  stepsSkippedSudo : Nat
  stepsFailed : Nat
  manualSudoCommands : List String
  failedStepsInfo : List FailedStepInfo
deriving DecidableEq, Repr

/-- JavaScript truthiness of an optional string: `undefined`, `null` and
the empty string are falsy, every other string is truthy. -/
def strTruthy : Option String → Bool
  | none => false
  | some s => s != ""

lemma strTruthy_none : strTruthy none = false := rfl

lemma strTruthy_some (s : String) : strTruthy (some s) = (s != "") := rfl

/-! ## Planner (determineAction / createActionPlan)

`determineAction` is parametrized by `satisfies`, the range check of the
external node-semver library (`semver.satisfies`). -/

/-- Decide the action for one audit result.  Direct embedding of
`determineAction` (Planner revision of src/SetupRunner/Executor.ts,
lines 881-918).  The JavaScript `if (dependency.requiredVersion &&
installedVersion)` / `else if (!dependency.requiredVersion)` chain is
rendered with `strTruthy`. -/
def determineAction (satisfies : String → String → Bool)
    (result : AuditResult) : ActionStep :=
  let dep := result.dependency
  let installedVersion := result.installedVersion
  if result.isInstalled = false then
    { dependency := dep
      action := ActionKind.INSTALL
      reason := dep.name ++ " is not installed." }
  else if strTruthy dep.requiredVersion && strTruthy installedVersion then
    if satisfies (installedVersion.getD "") (dep.requiredVersion.getD "") then
      { dependency := dep
        action := ActionKind.ALREADY_MET
        reason := dep.name ++ " is installed at a compatible version ("
          ++ installedVersion.getD "" ++ ")." }
    else
      { dependency := dep
        action := ActionKind.REINSTALL
        reason := dep.name ++ " is installed at an incompatible version ("
          ++ (if strTruthy installedVersion then installedVersion.getD "" else "unknown")
          ++ "). Required: "
          ++ (if strTruthy dep.requiredVersion then dep.requiredVersion.getD "" else "any")
          ++ "." }
  else if !(strTruthy dep.requiredVersion) then
    { dependency := dep
      action := ActionKind.ALREADY_MET
      reason := dep.name ++ " is installed ("
        ++ (if strTruthy installedVersion then installedVersion.getD ""
            else "version not detected")
        ++ "). No specific version required." }
  else
    { dependency := dep
      action := ActionKind.REINSTALL
      reason := dep.name ++ " is installed at an incompatible version ("
        ++ (if strTruthy installedVersion then installedVersion.getD "" else "unknown")
        ++ "). Required: "
        ++ (if strTruthy dep.requiredVersion then dep.requiredVersion.getD "" else "any")
        ++ "." }

/-- Build the plan: the source loops over the audit results pushing
`determineAction` of each onto the plan (`createActionPlan`, lines
868-876 of the Planner revision).  The push loop is a left fold. -/
def createActionPlan (satisfies : String → String → Bool)
    (auditResults : List AuditResult) : List ActionStep :=
  auditResults.foldl (fun plan r => plan ++ [determineAction satisfies r]) []

/-! ### Planner lemmas -/

lemma createActionPlan_foldl (satisfies : String → String → Bool)
    (rs : List AuditResult) :
    ∀ acc : List ActionStep,
      rs.foldl (fun plan r => plan ++ [determineAction satisfies r]) acc
        = acc ++ rs.map (determineAction satisfies) := by
  induction rs with
  | nil => intro acc; simp
  | cons r rest ih =>
      intro acc
      simp only [List.foldl_cons, List.map_cons]
      rw [ih]
      simp

lemma createActionPlan_eq_map (satisfies : String → String → Bool)
    (rs : List AuditResult) :
    createActionPlan satisfies rs = rs.map (determineAction satisfies) := by
  unfold createActionPlan
  simpa using createActionPlan_foldl satisfies rs []

/-! ## Auditor (src/SetupRunner/Auditor.ts)

The version extraction `parseVersion` applies three regular-expression
layers and a raw-text fallback.  The JavaScript regular expressions are
embedded as explicit scanners over the character list; `semver.valid`
of the external library is a `valid : String → Bool` parameter. -/

/-- Maximal run of decimal digits at the head of the character list,
together with what remains (greedy `\d*`). -/
def digitRun : List Char → List Char × List Char
  | [] => ([], [])
  | c :: cs =>
      if c.isDigit then
        let p := digitRun cs
        (c :: p.1, p.2)
      else ([], c :: cs)

/-- Maximal run of whitespace at the head of the character list (greedy
`\s*`; the embedding uses the four ASCII whitespace characters, the
only ones the repository's probe outputs contain). -/
def wsRun : List Char → List Char × List Char
  | [] => ([], [])
  | c :: cs =>
      if c.isWhitespace then
        let p := wsRun cs
        (c :: p.1, p.2)
      else ([], c :: cs)

/-- Match `\d+\.\d+\.\d+` anchored at the head of the list, returning
the matched text.  The digit runs are greedy; since each run must be
followed by a literal dot (or ends the pattern), greediness is
equivalent to maximal-run matching. -/
def tripleAt (cs : List Char) : Option String :=
  let p1 := digitRun cs
  if p1.1 = [] then none
  else
    match p1.2 with
    | '.' :: r2 =>
        let p2 := digitRun r2
        if p2.1 = [] then none
        else
          match p2.2 with
          | '.' :: r4 =>
              let p3 := digitRun r4
              if p3.1 = [] then none
              else some (String.mk (p1.1 ++ '.' :: p2.1 ++ '.' :: p3.1))
          | _ => none
    | _ => none

/-- Match `v?(\d+\.\d+\.\d+)` anchored at the head, returning capture
group 1.  A leading `v` that is not followed by the triple cannot be
rescued by taking the `v?` branch empty, since `v` is not a digit. -/
def bareTripleAt : List Char → Option String
  | 'v' :: rest => tripleAt rest
  | cs => tripleAt cs

/-- Leftmost-match scan: try the anchored matcher at every position,
left to right, as the JavaScript regex engine does for an unanchored
pattern. -/
def scanFor (f : List Char → Option String) : List Char → Option String
  | [] => f []
  | c :: cs =>
      match f (c :: cs) with
      | some m => some m
      | none => scanFor f cs

/-- Case-insensitive literal match of `pat` at the head of `cs`,
returning the remainder on success. -/
def ciMatch : List Char → List Char → Option (List Char)
  | [], rest => some rest
  | _ :: _, [] => none
  | p :: ps, c :: rest =>
      if c.toLower = p then ciMatch ps rest else none

/-- Match `word` case-insensitively, then `\s+`, then the version
triple, anchored at the head; returns capture group 1. -/
def wordTripleAt (word : List Char) (cs : List Char) : Option String :=
  match ciMatch word cs with
  | none => none
  | some rest =>
      let p := wsRun rest
      if p.1 = [] then none else tripleAt p.2

/-- Match `(?:version\s+|is\s+)(\d+\.\d+\.\d+)` (case-insensitive)
anchored at the head: alternatives tried in source order. -/
def altWordTripleAt (cs : List Char) : Option String :=
  match wordTripleAt ['v', 'e', 'r', 's', 'i', 'o', 'n'] cs with
  | some m => some m
  | none => wordTripleAt ['i', 's'] cs

/-- First match of `/v?(\d+\.\d+\.\d+)/` in the string (layer 1 of
`parseVersion`). -/
def matchBareTriple (s : String) : Option String :=
  scanFor bareTripleAt s.data

/-- First match of `/(?:version\s+|is\s+)(\d+\.\d+\.\d+)/i` (layer 2). -/
def matchWordTriple (s : String) : Option String :=
  scanFor altWordTripleAt s.data

/-- First match of `/version\s+(\d+\.\d+\.\d+)/i` (layer 3). -/
def matchVersionTriple (s : String) : Option String :=
  scanFor (wordTripleAt ['v', 'e', 'r', 's', 'i', 'o', 'n']) s.data

/-- Drop leading whitespace from a character list. -/
def dropWs : List Char → List Char
  | [] => []
  | c :: cs => if c.isWhitespace then dropWs cs else c :: cs

/-- Embedding of the JavaScript `String.prototype.trim`: remove
leading and trailing whitespace. -/
def jsTrim (s : String) : String :=
  String.mk ((dropWs ((dropWs s.data.reverse).reverse)))

/-- Layer 4 of `parseVersion`: the source returns `output.trim()`
whether or not `semver.valid` accepts it (both branches of the final
`if` return the same expression), so the fallback is the trimmed raw
text. -/
def parseVersionLayer4 (valid : String → Bool) (output : String) : Option String :=
  if valid (jsTrim output) then some (jsTrim output) else some (jsTrim output)

/-- Layer 3 of `parseVersion`: `/version\s+(\d+\.\d+\.\d+)/i` guarded
by `semver.valid` of the capture. -/
def parseVersionLayer3 (valid : String → Bool) (output : String) : Option String :=
  match matchVersionTriple output with
  | some c => if valid c then some c else parseVersionLayer4 valid output
  | none => parseVersionLayer4 valid output

/-- Layer 2 of `parseVersion`: `/(?:version\s+|is\s+)(\d+\.\d+\.\d+)/i`
guarded by `semver.valid` of the capture. -/
def parseVersionLayer2 (valid : String → Bool) (output : String) : Option String :=
  match matchWordTriple output with
  | some c => if valid c then some c else parseVersionLayer3 valid output
  | none => parseVersionLayer3 valid output

/-- Embedding of `parseVersion` (src/SetupRunner/Auditor.ts, lines
18-47), parametrized by `valid`, the external `semver.valid` check
(truthiness of its return value).  Empty input returns `none` (the
JavaScript `if (!output) return null`); each regex layer returns its
capture when `semver.valid` accepts it; otherwise the trimmed raw text
is returned as fallback. -/
def parseVersion (valid : String → Bool) (output : String) : Option String :=
  if output = "" then none
  else
    match matchBareTriple output with
    | some c => if valid c then some c else parseVersionLayer2 valid output
    | none => parseVersionLayer2 valid output

/-- Outcome of executing one probe command: captured stdout on success,
or the error message of the thrown exception on failure. -/
inductive ProbeOutcome where
  | ok (output : String)
  | err (message : String)
deriving DecidableEq, Repr

/-- Environment of the Auditor: an oracle mapping each probe command
line to its outcome (the `child_process.execSync` call). -/
structure AuditEnv where
  probe : String → ProbeOutcome

/-- The probe command line built by `runAudit`:
quoted `cliName || name` followed by `versionFlag || '--version'`. -/
def auditCommand (dep : DependencyRequirement) : String :=
  let cli := if strTruthy dep.cliName then dep.cliName.getD "" else dep.name
  let flag := if strTruthy dep.versionFlag then dep.versionFlag.getD "" else "--version"
  "\"" ++ cli ++ "\" " ++ flag

/-- Audit one dependency: the loop body of `runAudit`
(src/SetupRunner/Auditor.ts, lines 59-93).  On probe success the
trimmed output is parsed; `notes` is set exactly when the parsed
version is falsy (the JavaScript `installedVersion ? undefined :
...`).  On probe failure the result records `isInstalled = false` with
the failure message in `notes`. -/
def auditOne (valid : String → Bool) (env : AuditEnv)
    (dep : DependencyRequirement) : AuditResult :=
  match env.probe (auditCommand dep) with
  | ProbeOutcome.ok out =>
      let versionOutput := jsTrim out
      let installedVersion := parseVersion valid versionOutput
      { dependency := dep
        isInstalled := true
        installedVersion := installedVersion
        notes :=
          if strTruthy installedVersion then none
          else some ("Could not parse version from output: " ++ versionOutput) }
  | ProbeOutcome.err msg =>
      { dependency := dep
        isInstalled := false
        installedVersion := none
        notes := some ("Command execution failed: " ++ msg) }

/-- Embedding of `runAudit` (src/SetupRunner/Auditor.ts, lines 55-97):
a loop pushing `auditOne` of each requirement, i.e. a left fold.  Each
probe is independently try/caught, so the function is total: no probe
failure propagates to the caller. -/
def runAudit (valid : String → Bool) (env : AuditEnv)
    (requirements : List DependencyRequirement) : List AuditResult :=
  requirements.foldl (fun results dep => results ++ [auditOne valid env dep]) []

/-! ### Auditor lemmas -/

lemma runAudit_foldl (valid : String → Bool) (env : AuditEnv)
    (reqs : List DependencyRequirement) :
    ∀ acc : List AuditResult,
      reqs.foldl (fun results dep => results ++ [auditOne valid env dep]) acc
        = acc ++ reqs.map (auditOne valid env) := by
  induction reqs with
  | nil => intro acc; simp
  | cons d rest ih =>
      intro acc
      simp only [List.foldl_cons, List.map_cons]
      rw [ih]
      simp

lemma runAudit_eq_map (valid : String → Bool) (env : AuditEnv)
    (reqs : List DependencyRequirement) :
    runAudit valid env reqs = reqs.map (auditOne valid env) := by
  unfold runAudit
  simpa using runAudit_foldl valid env reqs []

/-! ## Executor (final revision of src/SetupRunner/Executor.ts, lines 429-852)

Host effects are collected in `ExecEnv`: the platform string, the file
system existence oracle (`fs.existsSync`), the `which`/`where` lookup
oracle, winget availability, the child-process success oracle
(`runCommandAsync` resolving or rejecting) and the package catalog
(`PACKAGE_NAMES` of dependencyConfig.ts, whose source is not in the
repository snapshot; it is kept abstract as a lookup oracle).  The
interactive sudo terminal and the modal acknowledgment have no
observable value beyond the returned `requiresSudo`/`command` pair and
are not modelled further. -/

/-- The four supported Linux package-manager families. -/
inductive PM where
  | apt
  | dnf
  | pacman
  | zypper
deriving DecidableEq, Repr

/-- The string key of a package-manager family, used to index the
per-dependency map of the catalog and in command construction. -/
def pmKey : PM → String
  | PM.apt => "apt"
  | PM.dnf => "dnf"
  | PM.pacman => "pacman"
  | PM.zypper => "zypper"

/-- The binary probed for a package-manager family in the well-known
directories and in the `which`/`where` lookup (`apt-get` for apt). -/
def pmBinary : PM → String
  | PM.apt => "apt-get"
  | PM.dnf => "dnf"
  | PM.pacman => "pacman"
  | PM.zypper => "zypper"

/-- A catalog value for one dependency id and one platform / package
manager key: `none` is the JavaScript `undefined` (no entry),
`some none` is the `null` manual-installation sentinel, and
`some (some s)` is a concrete package name. -/
abbrev CatalogValue := Option (Option String)

/-- Environment of the Executor. -/
structure ExecEnv where
  platform : String
  fsExists : String → Bool
  whichOk : String → Bool
  wingetOk : Bool
  runOk : String → List String → Bool
  catalog : String → Option (String → CatalogValue)

/-- Embedding of `detectLinuxPackageManager` (lines 439-476).  The
outer loop walks the four well-known directories in order and, inside
each directory, probes apt-get, dnf, pacman, zypper in that order; only
after all directories fail does the `which`/`where` phase run, probing
the four managers in order.  On win32 the source issues `where` instead
of `which`; both are the `whichOk` oracle applied to the binary name. -/
def detectLinuxPackageManager (env : ExecEnv) : Option PM :=
  let paths := ["/usr/bin/", "/bin/", "/usr/sbin/", "/sbin/"]
  match paths.findSome? (fun p =>
      if env.fsExists (p ++ "apt-get") then some PM.apt
      else if env.fsExists (p ++ "dnf") then some PM.dnf
      else if env.fsExists (p ++ "pacman") then some PM.pacman
      else if env.fsExists (p ++ "zypper") then some PM.zypper
      else none) with
  | some pm => some pm
  | none =>
      if env.whichOk "apt-get" then some PM.apt
      else if env.whichOk "dnf" then some PM.dnf
      else if env.whichOk "pacman" then some PM.pacman
      else if env.whichOk "zypper" then some PM.zypper
      else none

/-- Argument vector of the elevated install command for a manager
(the `args` of the `spawn` call, after the `sudo` command word). -/
def sudoInstallArgs (pm : PM) (pkg : String) : List String :=
  match pm with
  | PM.apt => ["apt-get", "install", "-y", pkg]
  | PM.dnf => ["dnf", "install", "-y", pkg]
  | PM.pacman => ["pacman", "-S", "--noconfirm", pkg]
  | PM.zypper => ["zypper", "install", "-y", pkg]

/-- Argument vector of the elevated remove command for a manager. -/
def sudoRemoveArgs (pm : PM) (pkg : String) : List String :=
  match pm with
  | PM.apt => ["apt-get", "remove", "-y", pkg]
  | PM.dnf => ["dnf", "remove", "-y", pkg]
  | PM.pacman => ["pacman", "-Rns", "--noconfirm", pkg]
  | PM.zypper => ["zypper", "remove", "-y", pkg]

/-- The `fullSudoCommandForUser` string surfaced to the user:
the command word `sudo` followed by the space-joined arguments. -/
def sudoCommandString (args : List String) : String :=
  "sudo " ++ String.intercalate " " args

/-- Package-name resolution phase of `installDependency` (lines
560-578): pick the catalog key by platform, detecting the Linux
package manager when the platform is linux; an undetectable manager on
linux and an undefined entry on an exotic platform throw. -/
def resolvePackageName (env : ExecEnv) (dep : DependencyRequirement)
    (pmap : String → CatalogValue) :
    Except String (CatalogValue × Option PM) :=
  if env.platform = "win32" ∨ env.platform = "darwin" then
    Except.ok (pmap env.platform, none)
  else if env.platform = "linux" then
    match detectLinuxPackageManager env with
    | some pm => Except.ok (pmap (pmKey pm), some pm)
    | none =>
        Except.error ("ERROR: Could not detect supported Linux package manager (apt, dnf, pacman, zypper). Cannot install " ++ dep.name ++ ".")
  else
    match pmap env.platform with
    | none =>
        Except.error ("ERROR: Platform " ++ env.platform ++ " is not explicitly supported for dependency " ++ dep.id ++ ".")
    | p => Except.ok (p, none)

/-- Command construction and execution phase of `installDependency`
(lines 592-665) for a concrete, non-empty package name.  macOS runs
brew as a managed child process; Windows checks the winget prerequisite
then runs winget; Linux always sets `requiresSudo`, hands the full sudo
command to the interactive terminal and, after the modal
acknowledgment, reports the skipped-sudo outcome with the command. -/
def runInstall (env : ExecEnv) (step : ActionStep) (pkg : String)
    (pmType : Option PM) : Except String (Bool × Option String) :=
  let dep := step.dependency
  if env.platform = "darwin" then
    if env.runOk "brew" ["install", pkg] then Except.ok (false, none)
    else Except.error ("ERROR: install process for " ++ dep.name ++ " exited with a nonzero code. Check output above.")
  else if env.platform = "win32" then
    if env.wingetOk = false then
      Except.error "Winget prerequisite missing."
    else if env.runOk "winget" ["install", "--id", pkg, "--source", "winget", "--accept-source-agreements", "--accept-package-agreements", "-e", "--force"] then
      Except.ok (false, none)
    else
      Except.error ("ERROR: install process for " ++ dep.name ++ " exited with a nonzero code. Check output above.")
  else if env.platform = "linux" then
    match pmType with
    | some pm => Except.ok (true, some (sudoCommandString (sudoInstallArgs pm pkg)))
    | none =>
        Except.error ("ERROR: Unsupported or undetermined platform configuration for " ++ dep.name ++ ".")
  else
    Except.error ("ERROR: Unsupported or undetermined platform configuration for " ++ dep.name ++ ".")

/-- Embedding of `installDependency` (lines 539-666).  Returns the
`{ requiresSudo, command }` pair on the success path and the thrown
error message otherwise.  The `null` catalog sentinel returns the
manual-installation marker with `requiresSudo = true`; an undefined or
empty package name throws (`!packageName`). -/
def installDependency (env : ExecEnv) (step : ActionStep) :
    Except String (Bool × Option String) :=
  let dep := step.dependency
  match env.catalog dep.id with
  | none =>
      Except.error ("ERROR: No configuration found for dependency ID " ++ dep.id ++ " in dependencyConfig.ts.")
  | some pmap =>
      match resolvePackageName env dep pmap with
      | Except.error e => Except.error e
      | Except.ok (pkgOpt, pmType) =>
          match pkgOpt with
          | some none =>
              Except.ok (true, some ("Manual installation needed for " ++ dep.name))
          | none =>
              Except.error ("ERROR: No installation package name found for dependency ID " ++ dep.id ++ " on platform " ++ env.platform ++ ". Check dependencyConfig.ts.")
          | some (some pkg) =>
              if pkg = "" then
                Except.error ("ERROR: No installation package name found for dependency ID " ++ dep.id ++ " on platform " ++ env.platform ++ ". Check dependencyConfig.ts.")
              else runInstall env step pkg pmType

/-- Embedding of `uninstallDependency` (lines 670-758).  The function
never throws: every problem path returns `(false, none)` after a
logged warning, the `null` sentinel returns the manual-removal marker,
the Linux path returns the sudo command, and a failed managed
uninstall is caught and swallowed (both branches of the brew/winget
run produce `(false, none)`). -/
def uninstallDependency (env : ExecEnv) (step : ActionStep) :
    Bool × Option String :=
  let dep := step.dependency
  match env.catalog dep.id with
  | none => (false, none)
  | some pmap =>
      let resolved : Option (CatalogValue × Option PM) :=
        if env.platform = "win32" ∨ env.platform = "darwin" then
          some (pmap env.platform, none)
        else if env.platform = "linux" then
          match detectLinuxPackageManager env with
          | some pm => some (pmap (pmKey pm), some pm)
          | none => some (none, none)
        else
          match pmap env.platform with
          | none => none
          | p => some (p, none)
      match resolved with
      | none => (false, none)
      | some (pkgOpt, pmType) =>
          match pkgOpt with
          | some none => (true, some ("Manual removal needed for " ++ dep.name))
          | none => (false, none)
          | some (some pkg) =>
              if pkg = "" then (false, none)
              else if env.platform = "darwin" then
                if env.runOk "brew" ["uninstall", pkg] then (false, none) else (false, none)
              else if env.platform = "win32" then
                if env.runOk "winget" ["uninstall", "--id", pkg, "--source", "winget", "--accept-source-agreements", "-e"] then (false, none) else (false, none)
              else if env.platform = "linux" then
                match pmType with
                | some pm => (true, some (sudoCommandString (sudoRemoveArgs pm pkg)))
                | none => (false, none)
              else (false, none)

/-- The loop body of `executePlan` (lines 776-844): ALREADY_MET steps
are skipped without counting; otherwise `stepsAttempted` is bumped and
the install (preceded, for REINSTALL, by a best-effort uninstall)
classifies the step as skipped-sudo, succeeded or failed.  The INSTALL
branch pushes the returned command without a membership check (line
798); both REINSTALL push sites check membership first (lines 807 and
815).  A thrown step error is caught here, tallied and recorded in
`failedStepsInfo`, and the loop continues. -/
def execStep (env : ExecEnv) (result : ExecutionResult)
    (step : ActionStep) : ExecutionResult :=
  match step.action with
  | ActionKind.ALREADY_MET => result
  | ActionKind.INSTALL =>
      let result := { result with stepsAttempted := result.stepsAttempted + 1 }
      match installDependency env step with
      | Except.ok (requiresSudo, cmd) =>
          if requiresSudo then
            { result with
                stepsSkippedSudo := result.stepsSkippedSudo + 1
                manualSudoCommands :=
                  match cmd with
                  | some c =>
                      if c = "" then result.manualSudoCommands
                      else result.manualSudoCommands ++ [c]
                  | none => result.manualSudoCommands }
          else
            { result with stepsSucceeded := result.stepsSucceeded + 1 }
      | Except.error msg =>
          { result with
              stepsFailed := result.stepsFailed + 1
              failedStepsInfo := result.failedStepsInfo
                ++ [{ dependencyName := step.dependency.name
                      action := ActionKind.INSTALL
                      errorMessage := msg }] }
  | ActionKind.REINSTALL =>
      let result := { result with stepsAttempted := result.stepsAttempted + 1 }
      let u := uninstallDependency env step
      let result :=
        match u with
        | (true, some c) =>
            if c ≠ "" ∧ c ∉ result.manualSudoCommands then
              { result with manualSudoCommands := result.manualSudoCommands ++ [c] }
            else result
        | _ => result
      match installDependency env step with
      | Except.ok (requiresSudo, cmd) =>
          if requiresSudo then
            { result with
                stepsSkippedSudo := result.stepsSkippedSudo + 1
                manualSudoCommands :=
                  match cmd with
                  | some c =>
                      if c ≠ "" ∧ c ∉ result.manualSudoCommands then
                        result.manualSudoCommands ++ [c]
                      else result.manualSudoCommands
                  | none => result.manualSudoCommands }
          else
            { result with stepsSucceeded := result.stepsSucceeded + 1 }
      | Except.error msg =>
          { result with
              stepsFailed := result.stepsFailed + 1
              failedStepsInfo := result.failedStepsInfo
                ++ [{ dependencyName := step.dependency.name
                      action := ActionKind.REINSTALL
                      errorMessage := msg }] }

/-- Literal prefix test on character lists. -/
def strStartsAux : List Char → List Char → Bool
  | [], _ => true
  | _ :: _, [] => false
  | p :: ps, c :: cs => p = c && strStartsAux ps cs

/-- Embedding of the JavaScript `cmd.startsWith(pre)` used by the
final filter of `executePlan`: literal prefix test on the character
sequences. -/
def strStarts (pre s : String) : Bool :=
  strStartsAux pre.data s.data

/-- The freshly initialized `ExecutionResult` of `executePlan`
(lines 766-774). -/
def initResult (plan : List ActionStep) : ExecutionResult :=
  { totalSteps := plan.length
    stepsAttempted := 0
    stepsSucceeded := 0
    stepsSkippedSudo := 0
    stepsFailed := 0
    manualSudoCommands := []
    failedStepsInfo := [] }

/-- Embedding of `executePlan` (lines 764-852): fold the loop body
over the plan, then filter every entry starting with the text
`Manual` out of `manualSudoCommands` (line 847) before returning. -/
def executePlan (env : ExecEnv) (plan : List ActionStep) : ExecutionResult :=
  let result := plan.foldl (execStep env) (initResult plan)
  { result with
      manualSudoCommands :=
        result.manualSudoCommands.filter (fun cmd => !(strStarts "Manual" cmd)) }

/-! ## Model of the external node-semver library

The repository treats node-semver as an assumed external library; the
theorems below are parametrized over its `valid`/`satisfies` checks.
The concrete model here instantiates those parameters in witnesses and
counterexamples; it implements the documented behaviour on the plain
release versions and simple lower-bound ranges the repository
exercises. -/

/-- A numeric identifier may not have a leading zero unless it is the
single digit 0. -/
def noLeadingZero : List Char → Bool
  | [] => false
  | [_] => true
  | c :: _ :: _ => c != '0'

/-- Numeric value of a digit run. -/
def digitsToNat (cs : List Char) : Nat :=
  cs.foldl (fun n c => 10 * n + (c.toNat - 48)) 0

/-- Parse exactly `NUM.NUM.NUM` (the whole list), returning the three
numeric components. -/
def parseReleaseTriple (cs : List Char) : Option (Nat × Nat × Nat) :=
  let p1 := digitRun cs
  if p1.1 = [] then none
  else
    match p1.2 with
    | '.' :: r2 =>
        let p2 := digitRun r2
        if p2.1 = [] then none
        else
          match p2.2 with
          | '.' :: r4 =>
              let p3 := digitRun r4
              if p3.1 = [] ∨ p3.2 ≠ [] then none
              else some (digitsToNat p1.1, digitsToNat p2.1, digitsToNat p3.1)
          | _ => none
    | _ => none

/-- Model of `semver.valid` for plain release versions: an optional
leading `v`, then `MAJOR.MINOR.PATCH` with no leading zeros.
Prerelease and build suffixes, which the repository's probe outputs do
not produce, are rejected. -/
def semverValid (s : String) : Bool :=
  let cs := match s.data with
    | 'v' :: r => r
    | other => other
  let p1 := digitRun cs
  if p1.1 = [] ∨ ¬ noLeadingZero p1.1 then false
  else
    match p1.2 with
    | '.' :: r2 =>
        let p2 := digitRun r2
        if p2.1 = [] ∨ ¬ noLeadingZero p2.1 then false
        else
          match p2.2 with
          | '.' :: r4 =>
              let p3 := digitRun r4
              decide (p3.1 ≠ [] ∧ noLeadingZero p3.1 ∧ p3.2 = [])
          | _ => false
    | _ => false

/-- Lexicographic comparison of release triples. -/
def tripleLe (a b : Nat × Nat × Nat) : Bool :=
  decide (a.1 < b.1 ∨ (a.1 = b.1 ∧ (a.2.1 < b.2.1 ∨ (a.2.1 = b.2.1 ∧ a.2.2 ≤ b.2.2))))

/-- Model of `semver.satisfies` for ranges of the form `>=X.Y.Z`: true
exactly when both the version and the bound parse as release triples
and the version is at least the bound.  An invalid version never
satisfies a range. -/
def semverGeSatisfies (version range : String) : Bool :=
  match range.data with
  | '>' :: '=' :: r =>
      match parseReleaseTriple r, parseReleaseTriple version.data with
      | some bound, some v => tripleLe bound v
      | _, _ => false
  | _ => false

/-! ## Concrete fixtures for witnesses and counterexamples -/

/-- A dependency with no catalog entry in the fixtures below. -/
def depOne : DependencyRequirement := { id := "dep1", name := "Dep One" }

/-- A dependency mapped to the brew package pkg2 in `envTwoStep`. -/
def depTwo : DependencyRequirement := { id := "dep2", name := "Dep Two" }

/-- A dependency mapped to the apt package nodejs in `envApt`. -/
def depNode : DependencyRequirement := { id := "node", name := "Node.js" }

/-- macOS host where dep1 has no catalog entry, dep2 maps to the brew
package pkg2 and `brew install pkg2` succeeds. -/
def envTwoStep : ExecEnv :=
  { platform := "darwin"
    fsExists := fun _ => false
    whichOk := fun _ => false
    wingetOk := false
    runOk := fun c args => c == "brew" && args == ["install", "pkg2"]
    catalog := fun i =>
      if i = "dep2" then some (fun k => if k = "darwin" then some (some "pkg2") else none)
      else none }

/-- The two-step plan of the C2 scenario: an unmapped install followed
by a valid install. -/
def planTwoStep : List ActionStep :=
  [{ dependency := depOne, action := ActionKind.INSTALL, reason := "r1" },
   { dependency := depTwo, action := ActionKind.INSTALL, reason := "r2" }]

/-- Linux host with apt-get in /usr/bin, where node maps to the apt
package nodejs. -/
def envApt : ExecEnv :=
  { platform := "linux"
    fsExists := fun p => p == "/usr/bin/apt-get"
    whichOk := fun _ => false
    wingetOk := false
    runOk := fun _ _ => false
    catalog := fun i =>
      if i = "node" then some (fun k => if k = "apt" then some (some "nodejs") else none)
      else none }

/-- A plan with two identical INSTALL steps for node. -/
def planDupInstall : List ActionStep :=
  [{ dependency := depNode, action := ActionKind.INSTALL, reason := "r" },
   { dependency := depNode, action := ActionKind.INSTALL, reason := "r" }]

/-- A plan with two identical REINSTALL steps for node. -/
def planDupReinstall : List ActionStep :=
  [{ dependency := depNode, action := ActionKind.REINSTALL, reason := "r" },
   { dependency := depNode, action := ActionKind.REINSTALL, reason := "r" }]

/-- macOS host where dep1 carries the null manual-installation
sentinel. -/
def envManualSentinel : ExecEnv :=
  { platform := "darwin"
    fsExists := fun _ => false
    whichOk := fun _ => false
    wingetOk := false
    runOk := fun _ _ => false
    catalog := fun i =>
      if i = "dep1" then some (fun k => if k = "darwin" then some none else none)
      else none }

/-- A single INSTALL step for the manual-sentinel dependency. -/
def planManualSentinel : List ActionStep :=
  [{ dependency := depOne, action := ActionKind.INSTALL, reason := "r" }]

/-- Linux host where only the dnf binary exists (at /usr/bin/dnf). -/
def envOnlyDnf : ExecEnv :=
  { platform := "linux"
    fsExists := fun p => p == "/usr/bin/dnf"
    whichOk := fun _ => false
    wingetOk := false
    runOk := fun _ _ => false
    catalog := fun _ => none }

/-- Linux host where dnf sits in /usr/bin and apt-get sits in /bin:
both managers are present at well-known filesystem paths. -/
def envCross : ExecEnv :=
  { platform := "linux"
    fsExists := fun p => p == "/usr/bin/dnf" || p == "/bin/apt-get"
    whichOk := fun _ => false
    wingetOk := false
    runOk := fun _ _ => false
    catalog := fun _ => none }

/-- Linux host with no package manager anywhere. -/
def envNoPm : ExecEnv :=
  { platform := "linux"
    fsExists := fun _ => false
    whichOk := fun _ => false
    wingetOk := false
    runOk := fun _ _ => false
    catalog := fun i =>
      if i = "node" then some (fun _ => some (some "nodejs")) else none }

/-- Audit environment whose every probe prints the unparseable text
garbage-no-version. -/
def envGarbage : AuditEnv :=
  { probe := fun _ => ProbeOutcome.ok "garbage-no-version" }

/-- Audit environment whose every probe fails with the message "not
found". -/
def envProbeFail : AuditEnv :=
  { probe := fun _ => ProbeOutcome.err "not found" }

/-! ### Executor lemmas -/

lemma foldl_execStep_inv (env : ExecEnv) (P : ExecutionResult → Prop) :
    ∀ plan : List ActionStep,
      (∀ res step, step ∈ plan → P res → P (execStep env res step)) →
      ∀ res, P res → P (plan.foldl (execStep env) res) := by
  intro plan
  induction plan with
  | nil => intro _ res h; simpa using h
  | cons s t ih =>
      intro hstep res h
      simp only [List.foldl_cons]
      exact ih (fun r st hm hp => hstep r st (List.mem_cons_of_mem s hm) hp)
        (execStep env res s) (hstep res s (List.mem_cons_self s t) h)

lemma execStep_counts_preserved (env : ExecEnv) (res : ExecutionResult)
    (step : ActionStep)
    (h : res.stepsAttempted = res.stepsSucceeded + res.stepsSkippedSudo + res.stepsFailed) :
    (execStep env res step).stepsAttempted =
      (execStep env res step).stepsSucceeded
        + (execStep env res step).stepsSkippedSudo
        + (execStep env res step).stepsFailed := by
  cases hact : step.action with
  | ALREADY_MET => simpa [execStep, hact] using h
  | INSTALL =>
      rcases hi : installDependency env step with msg | ⟨rs, cmd⟩
      · simp [execStep, hact, hi]; omega
      · cases rs <;> cases cmd <;> simp [execStep, hact, hi] <;>
          first
          | omega
          | (split_ifs <;> simp <;> omega)
  | REINSTALL =>
      rcases hu : uninstallDependency env step with ⟨ub, uc⟩
      rcases hi : installDependency env step with msg | ⟨rs, cmd⟩
      · cases ub <;> cases uc <;> simp [execStep, hact, hi, hu] <;>
          first
          | omega
          | (split_ifs <;> simp <;> omega)
      · cases ub <;> cases uc <;> cases rs <;> cases cmd <;>
          simp [execStep, hact, hi, hu] <;>
          first
          | omega
          | (split_ifs <;> simp <;> omega)

lemma execStep_failed_info_preserved (env : ExecEnv) (res : ExecutionResult)
    (step : ActionStep)
    (h : res.stepsFailed = res.failedStepsInfo.length) :
    (execStep env res step).stepsFailed =
      (execStep env res step).failedStepsInfo.length := by
  cases hact : step.action with
  | ALREADY_MET => simpa [execStep, hact] using h
  | INSTALL =>
      rcases hi : installDependency env step with msg | ⟨rs, cmd⟩
      · simp [execStep, hact, hi]; omega
      · cases rs <;> cases cmd <;> simp [execStep, hact, hi] <;>
          first
          | omega
          | (split_ifs <;> simp <;> omega)
  | REINSTALL =>
      rcases hu : uninstallDependency env step with ⟨ub, uc⟩
      rcases hi : installDependency env step with msg | ⟨rs, cmd⟩
      · cases ub <;> cases uc <;> simp [execStep, hact, hi, hu] <;>
          first
          | omega
          | (split_ifs <;> simp <;> omega)
      · cases ub <;> cases uc <;> cases rs <;> cases cmd <;>
          simp [execStep, hact, hi, hu] <;>
          first
          | omega
          | (split_ifs <;> simp <;> omega)

lemma nodup_append_singleton {c : String} {l : List String}
    (hl : l.Nodup) (hc : c ∉ l) : (l ++ [c]).Nodup := by
  simp [List.nodup_append, hl, hc]

lemma execStep_nodup_preserved (env : ExecEnv) (res : ExecutionResult)
    (step : ActionStep) (hnotinstall : step.action ≠ ActionKind.INSTALL)
    (h : res.manualSudoCommands.Nodup) :
    (execStep env res step).manualSudoCommands.Nodup := by
  cases hact : step.action with
  | ALREADY_MET => simpa [execStep, hact] using h
  | INSTALL => exact absurd hact hnotinstall
  | REINSTALL =>
      rcases hu : uninstallDependency env step with ⟨ub, uc⟩
      rcases hi : installDependency env step with msg | ⟨rs, cmd⟩
      · cases ub <;> cases uc <;> simp [execStep, hact, hi, hu] <;>
          first
          | exact h
          | (split_ifs <;> simp_all [List.nodup_append] <;> try (intro hh; simp_all))
      · cases ub <;> cases uc <;> cases rs <;> cases cmd <;>
          simp [execStep, hact, hi, hu] <;>
          first
          | exact h
          | (split_ifs <;> simp_all [List.nodup_append] <;> try (intro hh; simp_all))

/-- The user-facing sudo command string is never empty. -/
lemma sudoCommandString_ne_empty (args : List String) :
    sudoCommandString args ≠ "" := by
  intro h
  have hlen : (sudoCommandString args).length = 0 := by rw [h]; rfl
  unfold sudoCommandString at hlen
  rw [String.length_append] at hlen
  have h5 : ("sudo ").length = 5 := rfl
  rw [h5] at hlen
  omega

/-! ## Claims -/

/-- C1: For every environment and every plan, the `ExecutionResult`
returned by `executePlan` satisfies `stepsAttempted = stepsSucceeded +
stepsSkippedSudo + stepsFailed`: every attempted (non-ALREADY_MET) step
is counted in exactly one of the three outcome tallies. -/
theorem C1_counts_invariant (env : ExecEnv) (plan : List ActionStep) :
    (executePlan env plan).stepsAttempted =
      (executePlan env plan).stepsSucceeded
        + (executePlan env plan).stepsSkippedSudo
        + (executePlan env plan).stepsFailed := by
  have hfold := foldl_execStep_inv env
    (fun r => r.stepsAttempted = r.stepsSucceeded + r.stepsSkippedSudo + r.stepsFailed)
    plan (fun res step _ hp => execStep_counts_preserved env res step hp)
    (initResult plan) (by simp [initResult])
  simpa [executePlan] using hfold

/-- C2: A step failure is caught at the per-step boundary, recorded in
`failedStepsInfo` with `stepsFailed` incremented, and execution
continues (`executePlan` is a total function of the environment, so a
single step failure never escapes it).  In particular, in the two-step
plan where step 1 has no catalog entry and step 2 is a valid install,
step 2 is still attempted and succeeds, and the result has
`stepsFailed = 1` and `stepsAttempted = 2`. -/
theorem C2_step_failure_isolated :
    (∀ (env : ExecEnv) (plan : List ActionStep),
        (executePlan env plan).stepsFailed
          = (executePlan env plan).failedStepsInfo.length) ∧
    (executePlan envTwoStep planTwoStep).stepsFailed = 1 ∧
    (executePlan envTwoStep planTwoStep).stepsAttempted = 2 ∧
    (executePlan envTwoStep planTwoStep).stepsSucceeded = 1 ∧
    (executePlan envTwoStep planTwoStep).failedStepsInfo.map
        FailedStepInfo.dependencyName = ["Dep One"] := by
  refine ⟨?_, by decide, by decide, by decide, by decide⟩
  intro env plan
  have hfold := foldl_execStep_inv env
    (fun r => r.stepsFailed = r.failedStepsInfo.length)
    plan (fun res step _ hp => execStep_failed_info_preserved env res step hp)
    (initResult plan) (by simp [initResult])
  simpa [executePlan] using hfold

/-- C4: `createActionPlan` returns exactly one `ActionStep` per input
audit result, in the same order (element i of the plan is
`determineAction` of element i of the input), and is a pure function,
hence deterministic: two runs on the same input are identical. -/
theorem C4_planner_shape (satisfies : String → String → Bool)
    (rs : List AuditResult) :
    (createActionPlan satisfies rs).length = rs.length ∧
    (∀ i : Nat, (createActionPlan satisfies rs)[i]?
        = (rs[i]?).map (determineAction satisfies)) ∧
    createActionPlan satisfies rs = createActionPlan satisfies rs := by
  refine ⟨?_, ?_, rfl⟩
  · simp [createActionPlan_eq_map]
  · intro i
    simp [createActionPlan_eq_map]

/-- C10 (implicit): the final filter of `executePlan` removes every
entry that begins with the text `Manual` from `manualSudoCommands`;
consequently a step skipped through the null manual-installation
sentinel increments `stepsSkippedSudo` without contributing an entry to
the returned list, so `stepsSkippedSudo` can exceed the length of
`manualSudoCommands`. -/
theorem C10_manual_filter :
    (∀ (env : ExecEnv) (plan : List ActionStep),
        ((executePlan env plan).manualSudoCommands.all
          (fun c => !(strStarts "Manual" c))) = true) ∧
    (executePlan envManualSentinel planManualSentinel).stepsSkippedSudo = 1 ∧
    (executePlan envManualSentinel planManualSentinel).manualSudoCommands = [] ∧
    (executePlan envManualSentinel planManualSentinel).manualSudoCommands.length
      < (executePlan envManualSentinel planManualSentinel).stepsSkippedSudo := by
  refine ⟨?_, by decide, by decide, by decide⟩
  intro env plan
  rw [List.all_eq_true]
  intro c hc
  simp only [executePlan, List.mem_filter] at hc
  simpa using hc.2

/-- C3: the Planner's decision table.  `determineAction` is quantified
over the external range check `satisfies`; a present `requiredVersion`
or `installedVersion` is one that is truthy in the source's JavaScript
sense, i.e. a non-empty string.  Not installed gives INSTALL; installed
with no required version gives ALREADY_MET; installed with a satisfied
required version gives ALREADY_MET; installed with a required version
and an absent/falsy installed version, or one the range check rejects
(as it does for unparseable versions), gives REINSTALL. -/
theorem C3_decision_table (satisfies : String → String → Bool) :
    (∀ r : AuditResult, r.isInstalled = false →
        (determineAction satisfies r).action = ActionKind.INSTALL) ∧
    (∀ r : AuditResult, r.isInstalled = true →
        r.dependency.requiredVersion = none →
        (determineAction satisfies r).action = ActionKind.ALREADY_MET) ∧
    (∀ (r : AuditResult) (rv iv : String), r.isInstalled = true →
        r.dependency.requiredVersion = some rv → rv ≠ "" →
        r.installedVersion = some iv → iv ≠ "" →
        satisfies iv rv = true →
        (determineAction satisfies r).action = ActionKind.ALREADY_MET) ∧
    (∀ (r : AuditResult) (rv : String), r.isInstalled = true →
        r.dependency.requiredVersion = some rv → rv ≠ "" →
        strTruthy r.installedVersion = false →
        (determineAction satisfies r).action = ActionKind.REINSTALL) ∧
    (∀ (r : AuditResult) (rv iv : String), r.isInstalled = true →
        r.dependency.requiredVersion = some rv → rv ≠ "" →
        r.installedVersion = some iv → iv ≠ "" →
        satisfies iv rv = false →
        (determineAction satisfies r).action = ActionKind.REINSTALL) := by
  refine ⟨?_, ?_, ?_, ?_, ?_⟩
  · intro r h
    simp [determineAction, h]
  · intro r hinst hreq
    simp [determineAction, hinst, hreq, strTruthy_none]
  · intro r rv iv hinst hreq hrv hiv hivne hsat
    simp [determineAction, hinst, hreq, hiv, strTruthy_some, hrv, hivne, hsat]
  · intro r rv hinst hreq hrv hfalsy
    simp [determineAction, hinst, hreq, strTruthy_some, hrv, hfalsy]
  · intro r rv iv hinst hreq hrv hiv hivne hsat
    simp [determineAction, hinst, hreq, hiv, strTruthy_some, hrv, hivne, hsat]

/-- Fixtures instantiating the C3 decision table. -/
def auditNotInstalled : AuditResult :=
  { dependency := depNode, isInstalled := false }

/-- Installed, no version requirement. -/
def auditNoRequirement : AuditResult :=
  { dependency := depNode, isInstalled := true, installedVersion := some "2.5.0" }

/-- Installed at 2.5.0 with requirement >=2.0.0. -/
def auditSatisfied : AuditResult :=
  { dependency := { depNode with requiredVersion := some ">=2.0.0" }
    isInstalled := true, installedVersion := some "2.5.0" }

/-- Installed with requirement >=2.0.0 but no detected version. -/
def auditNoVersion : AuditResult :=
  { dependency := { depNode with requiredVersion := some ">=2.0.0" }
    isInstalled := true, installedVersion := none }

/-- Installed at 1.9.0 with requirement >=2.0.0. -/
def auditTooOld : AuditResult :=
  { dependency := { depNode with requiredVersion := some ">=2.0.0" }
    isInstalled := true, installedVersion := some "1.9.0" }

/-- Witness for C3: the decision table evaluated at concrete audit
results with the modelled range check. -/
theorem C3_decision_table_witness :
    (determineAction semverGeSatisfies auditNotInstalled).action
        = ActionKind.INSTALL ∧
    (determineAction semverGeSatisfies auditNoRequirement).action
        = ActionKind.ALREADY_MET ∧
    (determineAction semverGeSatisfies auditSatisfied).action
        = ActionKind.ALREADY_MET ∧
    (determineAction semverGeSatisfies auditNoVersion).action
        = ActionKind.REINSTALL ∧
    (determineAction semverGeSatisfies auditTooOld).action
        = ActionKind.REINSTALL := by
  obtain ⟨h1, h2, h3, h4, h5⟩ := C3_decision_table semverGeSatisfies
  exact ⟨h1 auditNotInstalled rfl,
         h2 auditNoRequirement rfl rfl,
         h3 auditSatisfied ">=2.0.0" "2.5.0" rfl rfl (by decide) rfl (by decide) (by decide),
         h4 auditNoVersion ">=2.0.0" rfl rfl (by decide) (by decide),
         h5 auditTooOld ">=2.0.0" "1.9.0" rfl rfl (by decide) rfl (by decide) (by decide)⟩

/-- C5: `runAudit` maps an ordered requirement list to a same-length,
same-order result list (element i of the output audits element i of
the input); it is total, so no probe failure reaches the caller; and a
failing probe yields an item with `isInstalled = false` and the failure
message in `notes`, while every other requirement is still probed
independently (element i depends only on requirement i). -/
theorem C5_auditor_contract (valid : String → Bool) (env : AuditEnv) :
    (∀ reqs : List DependencyRequirement,
        (runAudit valid env reqs).length = reqs.length) ∧
    (∀ (reqs : List DependencyRequirement) (i : Nat),
        (runAudit valid env reqs)[i]? = (reqs[i]?).map (auditOne valid env)) ∧
    (∀ (dep : DependencyRequirement) (msg : String),
        env.probe (auditCommand dep) = ProbeOutcome.err msg →
        auditOne valid env dep =
          { dependency := dep
            isInstalled := false
            installedVersion := none
            notes := some ("Command execution failed: " ++ msg) }) := by
  refine ⟨?_, ?_, ?_⟩
  · intro reqs
    simp [runAudit_eq_map]
  · intro reqs i
    simp [runAudit_eq_map]
  · intro dep msg hp
    simp [auditOne, hp]

/-- Witness for C5: the contract applied to a one-element requirement
list whose probe fails with the message "not found". -/
theorem C5_auditor_contract_witness :
    (runAudit semverValid envProbeFail [depNode]).length = 1 ∧
    envProbeFail.probe (auditCommand depNode) = ProbeOutcome.err "not found" ∧
    auditOne semverValid envProbeFail depNode =
      { dependency := depNode
        isInstalled := false
        installedVersion := none
        notes := some ("Command execution failed: " ++ "not found") } := by
  obtain ⟨h1, _h2, h3⟩ := C5_auditor_contract semverValid envProbeFail
  exact ⟨h1 [depNode], rfl, h3 depNode "not found" rfl⟩

/-- C6 counterexample: probing a tool whose output is
garbage-no-version records the raw text as `installedVersion`, but the
resulting `AuditResult` carries NO note: `parseVersion` returns the
raw fallback as a truthy string, so `runAudit` leaves `notes` unset
(the parse-failure warning goes to the console only).  This refutes
the claim that the fallback comes together with a note in the
`AuditResult`. -/
theorem C6_counterexample :
    parseVersion semverValid "garbage-no-version" = some "garbage-no-version" ∧
    (auditOne semverValid envGarbage depNode).installedVersion
        = some "garbage-no-version" ∧
    (auditOne semverValid envGarbage depNode).notes = none := by
  refine ⟨by decide, by decide, by decide⟩

/-- C6 (amended): version extraction yields 18.2.1 for v18.2.1 and
3.10.4 for Python 3.10.4; an input with no semantic version falls back
to the trimmed raw text as the recorded `installedVersion`, and in that
case (the parsed value being truthy) the `AuditResult` carries no note
-- `notes` is only set when the parsed value is falsy, i.e. when the
probe output is empty or whitespace. -/
theorem C6_version_extraction (valid : String → Bool)
    (h1 : valid "18.2.1" = true) (h2 : valid "3.10.4" = true)
    (h3 : valid "garbage-no-version" = false) :
    parseVersion valid "v18.2.1" = some "18.2.1" ∧
    parseVersion valid "Python 3.10.4" = some "3.10.4" ∧
    parseVersion valid "garbage-no-version" = some "garbage-no-version" ∧
    (∀ (env : AuditEnv) (dep : DependencyRequirement) (out : String),
        env.probe (auditCommand dep) = ProbeOutcome.ok out →
        strTruthy (parseVersion valid (jsTrim out)) = true →
        (auditOne valid env dep).notes = none) := by
  refine ⟨?_, ?_, ?_, ?_⟩
  · have e : matchBareTriple "v18.2.1" = some "18.2.1" := by decide
    simp [parseVersion, e, h1]
  · have e : matchBareTriple "Python 3.10.4" = some "3.10.4" := by decide
    simp [parseVersion, e, h2]
  · have e0 : matchBareTriple "garbage-no-version" = none := by decide
    have e1 : matchWordTriple "garbage-no-version" = none := by decide
    have e2 : matchVersionTriple "garbage-no-version" = none := by decide
    have e3 : jsTrim "garbage-no-version" = "garbage-no-version" := by decide
    simp [parseVersion, parseVersionLayer2, parseVersionLayer3, parseVersionLayer4,
      e0, e1, e2, e3, h3]
  · intro env dep out hp htruthy
    simp [auditOne, hp, htruthy]

/-- Witness for C6: the amended extraction behaviour instantiated with
the modelled `semver.valid`. -/
theorem C6_version_extraction_witness :
    parseVersion semverValid "v18.2.1" = some "18.2.1" ∧
    parseVersion semverValid "Python 3.10.4" = some "3.10.4" ∧
    (auditOne semverValid envGarbage depTwo).notes = none := by
  obtain ⟨g1, g2, _g3, g4⟩ :=
    C6_version_extraction semverValid (by decide) (by decide) (by decide)
  exact ⟨g1, g2, g4 envGarbage depTwo "garbage-no-version" rfl (by decide)⟩

/-- C7 counterexample: on a host where dnf sits in /usr/bin and
apt-get sits in /bin --- so apt, the highest-priority manager of the
claimed order, is present at a well-known filesystem path --- detection
returns dnf, not apt: the filesystem phase scans directory-by-directory,
not manager-by-manager, so the claimed apt-first priority does not hold
across directories. -/
theorem C7_counterexample :
    envCross.fsExists "/bin/apt-get" = true ∧
    detectLinuxPackageManager envCross = some PM.dnf ∧
    detectLinuxPackageManager envCross ≠ some PM.apt := by
  refine ⟨by decide, by decide, by decide⟩

/-- C7 (amended): detection probes the four well-known directories in
order and, within each directory, apt, dnf, pacman, zypper in that
order (so a manager found in an earlier directory wins even over a
higher-priority manager in a later directory), then falls back to
which/where lookups in apt, dnf, pacman, zypper order.  On a host where
only dnf is present the result is dnf, never apt; when nothing is
found, detection reports no manager, which makes the install step a
hard error. -/
theorem C7_pm_detection :
    detectLinuxPackageManager envOnlyDnf = some PM.dnf ∧
    (∀ env : ExecEnv, (∀ s, env.fsExists s = false) →
        (∀ s, env.whichOk s = false) →
        detectLinuxPackageManager env = none) ∧
    (∀ env : ExecEnv, env.fsExists "/usr/bin/apt-get" = false →
        env.fsExists "/usr/bin/dnf" = true →
        detectLinuxPackageManager env = some PM.dnf) ∧
    (∀ (env : ExecEnv) (step : ActionStep) (pmap : String → CatalogValue),
        env.platform = "linux" →
        detectLinuxPackageManager env = none →
        env.catalog step.dependency.id = some pmap →
        installDependency env step = Except.error
          ("ERROR: Could not detect supported Linux package manager (apt, dnf, pacman, zypper). Cannot install "
            ++ step.dependency.name ++ ".")) := by
  refine ⟨by decide, ?_, ?_, ?_⟩
  · intro env hf hw
    simp [detectLinuxPackageManager, hf, hw]
  · intro env h1 h2
    simp [detectLinuxPackageManager, h1, h2]
  · intro env step pmap hplat hdet hcat
    simp [installDependency, resolvePackageName, hplat, hdet, hcat]

/-- A single INSTALL step for node, used in executor witnesses. -/
def stepNodeInstall : ActionStep :=
  { dependency := depNode, action := ActionKind.INSTALL, reason := "install node" }

/-- Witness for C7: the amended detection behaviour instantiated at the
only-dnf host, the empty host and the cross-directory host. -/
theorem C7_pm_detection_witness :
    detectLinuxPackageManager envOnlyDnf = some PM.dnf ∧
    detectLinuxPackageManager envNoPm = none ∧
    detectLinuxPackageManager envCross = some PM.dnf ∧
    installDependency envNoPm stepNodeInstall = Except.error
      ("ERROR: Could not detect supported Linux package manager (apt, dnf, pacman, zypper). Cannot install "
        ++ "Node.js" ++ ".") := by
  obtain ⟨g1, g2, g3, g4⟩ := C7_pm_detection
  exact ⟨g1,
         g2 envNoPm (fun _ => rfl) (fun _ => rfl),
         g3 envCross (by decide) (by decide),
         g4 envNoPm stepNodeInstall (fun _ => some (some "nodejs")) rfl
           (g2 envNoPm (fun _ => rfl) (fun _ => rfl)) rfl⟩

/-- C8: an install step that resolves through a detected Linux package
manager always takes the elevated path: `installDependency` reports
`requiresSudo` with the full sudo command (handed to the interactive
terminal), and in the execution tally the step increments
`stepsSkippedSudo`, leaves `stepsSucceeded` unchanged, and its command
is in `manualSudoCommands`. -/
theorem C8_linux_install_skipped_sudo (env : ExecEnv) (step : ActionStep)
    (res : ExecutionResult) (pmap : String → CatalogValue) (pm : PM) (pkg : String)
    (hplat : env.platform = "linux")
    (hdet : detectLinuxPackageManager env = some pm)
    (hcat : env.catalog step.dependency.id = some pmap)
    (hpkg : pmap (pmKey pm) = some (some pkg))
    (hne : pkg ≠ "")
    (hact : step.action ≠ ActionKind.ALREADY_MET) :
    installDependency env step
        = Except.ok (true, some (sudoCommandString (sudoInstallArgs pm pkg))) ∧
    (execStep env res step).stepsSucceeded = res.stepsSucceeded ∧
    (execStep env res step).stepsSkippedSudo = res.stepsSkippedSudo + 1 ∧
    sudoCommandString (sudoInstallArgs pm pkg)
      ∈ (execStep env res step).manualSudoCommands := by
  have hinstall : installDependency env step
      = Except.ok (true, some (sudoCommandString (sudoInstallArgs pm pkg))) := by
    simp [installDependency, resolvePackageName, runInstall, hcat, hplat, hdet, hpkg, hne]
  refine ⟨hinstall, ?_, ?_, ?_⟩ <;>
  · cases hact2 : step.action with
    | ALREADY_MET => exact absurd hact2 hact
    | INSTALL =>
        simp [execStep, hact2, hinstall, sudoCommandString_ne_empty, List.mem_append]
    | REINSTALL =>
        rcases hu : uninstallDependency env step with ⟨ub, uc⟩
        cases ub <;> cases uc <;>
          simp [execStep, hact2, hinstall, hu, sudoCommandString_ne_empty,
            List.mem_append] <;>
          split_ifs <;> simp_all [List.mem_append] <;> tauto

/-- Witness for C8: node installing through apt on the envApt host. -/
theorem C8_linux_install_skipped_sudo_witness :
    installDependency envApt stepNodeInstall
        = Except.ok (true, some (sudoCommandString (sudoInstallArgs PM.apt "nodejs"))) ∧
    (execStep envApt (initResult []) stepNodeInstall).stepsSucceeded
        = (initResult []).stepsSucceeded ∧
    (execStep envApt (initResult []) stepNodeInstall).stepsSkippedSudo
        = (initResult []).stepsSkippedSudo + 1 ∧
    sudoCommandString (sudoInstallArgs PM.apt "nodejs")
      ∈ (execStep envApt (initResult []) stepNodeInstall).manualSudoCommands :=
  C8_linux_install_skipped_sudo envApt stepNodeInstall (initResult [])
    (fun k => if k = "apt" then some (some "nodejs") else none) PM.apt "nodejs"
    rfl (by decide) rfl rfl (by decide) (by decide)

/-- C9 counterexample: two INSTALL steps for the same dependency on an
apt host push the same sudo command twice --- the INSTALL push site has
no membership check --- so the returned `manualSudoCommands` contains a
duplicate, refuting the claim that the list is deduplicated for every
plan. -/
theorem C9_counterexample :
    (executePlan envApt planDupInstall).manualSudoCommands
        = ["sudo apt-get install -y nodejs", "sudo apt-get install -y nodejs"] ∧
    ¬ (executePlan envApt planDupInstall).manualSudoCommands.Nodup := by
  refine ⟨by decide, by decide⟩

/-- C9 (amended): both REINSTALL push sites check membership before
appending, so for every plan without INSTALL steps the returned
`manualSudoCommands` has no duplicates; the INSTALL push site appends
unconditionally, so plans with INSTALL steps can return duplicates. -/
theorem C9_reinstall_dedup (env : ExecEnv) (plan : List ActionStep)
    (h : ∀ step ∈ plan, step.action ≠ ActionKind.INSTALL) :
    (executePlan env plan).manualSudoCommands.Nodup := by
  have hfold := foldl_execStep_inv env (fun r => r.manualSudoCommands.Nodup)
    plan (fun res step hm hp => execStep_nodup_preserved env res step (h step hm) hp)
    (initResult plan) (by simp [initResult])
  exact List.Nodup.filter _ hfold

/-- Witness for C9: the deduplication guarantee at a concrete
two-REINSTALL plan. -/
theorem C9_reinstall_dedup_witness :
    (executePlan envApt planDupReinstall).manualSudoCommands.Nodup :=
  C9_reinstall_dedup envApt planDupReinstall (by decide)

end GekoPilot
